import Mathlib

/-!
Verification of the retry/timeout/backoff executor (`fetchRetrier`) and the
full-jitter delay calculator (`fullJitter`) of the fetch-retrier library.

The executor is embedded shallowly: the asynchronous transport (one call to
`fetch(url, { headers, signal })` per attempt) is a function from the 1-indexed
attempt number to either a response or a raised error; reading the body
(`res.text()`) and the caller-supplied retry predicate may also raise.  The
run of the executor is a pair of its terminal outcome and the trace of
observable events (transport invocations, predicate invocations, backoff
delays), so that counting claims can be stated over the trace.
-/

namespace FetchRetry

/-- Model of a JavaScript error value as classified by the catch block:
`isError` models `err instanceof Error`, `isTypeError` models
`err instanceof TypeError`, `name` and `message` are the usual fields. -/
structure Err where
  isError : Bool := true
  isTypeError : Bool := false
  name : String := "Error"
  message : String := ""
deriving DecidableEq, Repr

deriving instance DecidableEq for Except

/-- Model of a `Response`: the `ok` flag, the HTTP status, and the body read
`res.text()`, which either yields the buffered text or raises. -/
structure Response where
  ok : Bool
  status : Nat
  text : Except Err String
deriving DecidableEq, Repr

/-- Source `defaultShouldRetry`: retry on 429, 500, 502, 503, 504. -/
def defaultShouldRetry (res : Response) : Bool :=
  [429, 500, 502, 503, 504].contains res.status

/-- Source `RequestOptions`.  `shouldRetry` is the optional custom predicate;
as a fallible call it returns `Except Err Bool` (it may raise). -/
structure RequestOptions where
  headers : Option (List (String × String)) := none
  retries : Nat
  timeoutMs : Nat
  baseBackoffMs : Nat
  shouldRetry : Option (Response → String → Except Err Bool) := none

/-- The predicate actually used by the executor: the destructuring default
`shouldRetry = defaultShouldRetry` (the default never raises). -/
def predOf (options : RequestOptions) : Response → String → Except Err Bool :=
  options.shouldRetry.getD (fun res _ => Except.ok (defaultShouldRetry res))

/-- The error built by `throw new Error(\x60HTTP ${res.status}\x60)`. -/
def mkHttpError (status : Nat) : Err :=
  { message := "HTTP " ++ toString status }

/-- The error built by
`throw new Error(\x60Non-retriable HTTP error: ${res.status}\x60)`. -/
def mkNonRetriableError (status : Nat) : Err :=
  { message := "Non-retriable HTTP error: " ++ toString status }

/-- Observable events of one run: a transport invocation (with its 1-indexed
attempt number), an invocation of the retry predicate (with the response and
the buffered body it received), and a backoff delay (after the given
attempt). -/
inductive Event where
  | fetchCall (attempt : Nat)
  | predCall (res : Response) (body : String)
  | delayEvent (attempt : Nat)
deriving DecidableEq, Repr

/-- Terminal outcome of a run: the returned ok response, a raised error, or
the post-loop `throw new Error('Unreachable')`. -/
inductive FRResult where
  | ok (res : Response)
  | err (e : Err)
  | unreachable
deriving DecidableEq, Repr

/-- Outcome of one iteration of the attempt loop: `ret` is `return res`,
`thr` raises the error to the caller, `retry` proceeds to the next attempt
after a backoff delay. -/
inductive Step where
  | ret (res : Response)
  | thr (e : Err)
  | retry
deriving DecidableEq, Repr

/-- The catch block of the source, for an error `e` raised anywhere inside
the try block of attempt `isLast`-or-not: an `Error` named `AbortError`, and
a `TypeError`, are rethrown if this was the last attempt and otherwise cause
a delayed retry; every other error is rethrown at once. -/
def catchStep (e : Err) (isLast : Bool) : Step :=
  if e.isError && e.name == "AbortError" then
    if isLast then .thr e else .retry
  else if e.isTypeError then
    if isLast then .thr e else .retry
  else .thr e

/-- The classification the catch block retries on: `err instanceof Error &&
err.name === 'AbortError'`, or `err instanceof TypeError`. -/
def isTransient (e : Err) : Bool :=
  (e.isError && e.name == "AbortError") || e.isTypeError

/-- The try block of one attempt, given the outcome of the transport call:
an ok response returns; a non-ok response has its body read, then the retry
predicate is evaluated; a retriable last attempt throws the `HTTP status`
error, a retriable earlier attempt waits and continues, a non-retriable
response throws the `Non-retriable` error.  Every raised error — from the
transport, the body read, the predicate, or the two throws — goes through
`catchStep`.  Also yields the predicate-invocation events. -/
def tryStep (pred : Response → String → Except Err Bool)
    (fetched : Except Err Response) (isLast : Bool) : Step × List Event :=
  match fetched with
  | .error e => (catchStep e isLast, [])
  | .ok res =>
    if res.ok then (.ret res, [])
    else
      match res.text with
      | .error e => (catchStep e isLast, [])
      | .ok body =>
        match pred res body with
        | .error e => (catchStep e isLast, [.predCall res body])
        | .ok true =>
          if isLast then
            (catchStep (mkHttpError res.status) isLast, [.predCall res body])
          else (.retry, [.predCall res body])
        | .ok false =>
          (catchStep (mkNonRetriableError res.status) isLast,
            [.predCall res body])

/-- The attempt loop `for (attempt = 1; attempt <= retries; attempt++)`,
structurally recursive on `remaining`, the number of loop iterations still
allowed (`retries + 1 - attempt`; the top-level call passes `retries` at
`attempt = 1`).  `remaining = 0` is the loop exiting without an outcome:
`throw new Error('Unreachable')`.  A `retry` step records the backoff delay
and continues with the next attempt. -/
def attemptLoop (options : RequestOptions) (transport : Nat → Except Err Response) :
    Nat → Nat → FRResult × List Event
  | _, 0 => (.unreachable, [])
  | attempt, remaining + 1 =>
    match tryStep (predOf options) (transport attempt) (attempt == options.retries) with
    | (.ret res, evs) => (.ok res, .fetchCall attempt :: evs)
    | (.thr e, evs) => (.err e, .fetchCall attempt :: evs)
    | (.retry, evs) =>
      let r := attemptLoop options transport (attempt + 1) remaining
      (r.1, (.fetchCall attempt :: evs) ++ .delayEvent attempt :: r.2)

/-- Source `fetchRetrier`: run the attempt loop from attempt 1 with the full
budget `options.retries`.  The transport argument abstracts the ambient
`fetch(url, { headers, signal })`, indexed by attempt number. -/
def fetchRetrier (options : RequestOptions) (transport : Nat → Except Err Response) :
    FRResult × List Event :=
  attemptLoop options transport 1 options.retries

/-- Recognizer for transport-invocation events. -/
def isFetchEv : Event → Bool
  | .fetchCall _ => true
  | _ => false

/-- Recognizer for backoff-delay events. -/
def isDelayEv : Event → Bool
  | .delayEvent _ => true
  | _ => false

/-- Number of transport invocations recorded in a trace. -/
def countFetch (evs : List Event) : Nat :=
  evs.countP isFetchEv

/-- Number of backoff delays recorded in a trace. -/
def countDelay (evs : List Event) : Nat :=
  evs.countP isDelayEv

/-- Source `fullJitter`: `Math.floor(Math.random() * (base * 2 ** attempt))`,
with the value of `Math.random()` made explicit as the rational `rand`. -/
def fullJitter (base attempt : Nat) (rand : ℚ) : ℤ :=
  Int.floor (rand * ((base : ℚ) * 2 ^ attempt))

/-- A concrete configuration with attempt budget `k`, the default policy. -/
def wOpts (k : Nat) : RequestOptions :=
  { retries := k, timeoutMs := 5000, baseBackoffMs := 10 }

/-- A concrete 503 Service Unavailable response with readable body. -/
def res503 : Response := { ok := false, status := 503, text := .ok "unavailable" }

/-- A concrete 400 Bad Request response with readable body. -/
def res400 : Response := { ok := false, status := 400, text := .ok "bad request" }

/-- A concrete 200 ok response. -/
def okRes : Response := { ok := true, status := 200, text := .ok "" }

/-- A concrete cancellation error, as the abort controller raises it. -/
def abortErr : Err := { name := "AbortError", message := "This operation was aborted" }

/-- A concrete network-layer error (`TypeError`, as fetch raises it). -/
def typeErr : Err :=
  { isTypeError := true, name := "TypeError", message := "fetch failed" }

/-- A concrete generic error that is neither a cancellation nor a
network-layer error. -/
def genericErr : Err := { name := "RangeError", message := "boom" }

/-- A concrete non-ok response whose body read raises a network-layer
error. -/
def textFailRes : Response := { ok := false, status := 500, text := .error typeErr }

/-- A concrete transport whose first attempt yields `textFailRes` and whose
later attempts yield the ok response. -/
def textFailTransport : Nat → Except Err Response :=
  fun n => if n = 1 then .ok textFailRes else .ok okRes

/-- A concrete transport yielding two retriable 503 responses and then the
ok response. -/
def twoFailTransport : Nat → Except Err Response :=
  fun n => if n ≤ 2 then .ok res503 else .ok okRes

/-- On the last attempt the catch block always rethrows, whatever the
classification of the error. -/
theorem catchStep_last (e : Err) : catchStep e true = .thr e := by
  unfold catchStep
  split
  · rfl
  · split
    · rfl
    · rfl

/-- A transient-classified error (abort or network-layer) is rethrown on the
last attempt and causes a delayed retry otherwise. -/
theorem catchStep_transient (e : Err) (isLast : Bool) (h : isTransient e = true) :
    catchStep e isLast = if isLast then .thr e else .retry := by
  unfold isTransient at h
  unfold catchStep
  cases hA : (e.isError && e.name == "AbortError") <;> cases hT : e.isTypeError <;>
    simp_all

/-- A non-transient error is rethrown at once by the catch block. -/
theorem catchStep_fatal (e : Err) (isLast : Bool) (h : isTransient e = false) :
    catchStep e isLast = .thr e := by
  unfold isTransient at h
  unfold catchStep
  cases hA : (e.isError && e.name == "AbortError") <;> cases hT : e.isTypeError <;>
    simp_all

/-- On the last attempt `tryStep` never decides to retry. -/
theorem tryStep_last_ne_retry (pred : Response → String → Except Err Bool)
    (fetched : Except Err Response) : (tryStep pred fetched true).1 ≠ .retry := by
  unfold tryStep
  split
  · simp [catchStep_last]
  · split
    · simp
    · split
      · simp [catchStep_last]
      · split
        · simp [catchStep_last]
        · simp [catchStep_last]
        · simp [catchStep_last]

/-- A retry decision can only arise on a non-last attempt. -/
theorem tryStep_retry_not_last (pred : Response → String → Except Err Bool)
    (fetched : Except Err Response) (isLast : Bool)
    (h : (tryStep pred fetched isLast).1 = .retry) : isLast = false := by
  cases isLast
  · rfl
  · exact absurd h (tryStep_last_ne_retry pred fetched)

/-- Whenever `tryStep` records a predicate invocation, the response given to
the predicate was not ok and the body given to it is the successfully read
body text of that response. -/
theorem tryStep_pred_sound (pred : Response → String → Except Err Bool)
    (fetched : Except Err Response) (isLast : Bool) (res : Response) (body : String)
    (h : Event.predCall res body ∈ (tryStep pred fetched isLast).2) :
    res.ok = false ∧ res.text = Except.ok body := by
  unfold tryStep at h
  repeat' split at h
  all_goals simp at h
  all_goals simp_all

/-- An empty trace records no transport invocation. -/
theorem countFetch_nil : countFetch [] = 0 := rfl

/-- An empty trace records no delay. -/
theorem countDelay_nil : countDelay [] = 0 := rfl

/-- Counting transport invocations distributes over trace concatenation. -/
theorem countFetch_append (l1 l2 : List Event) :
    countFetch (l1 ++ l2) = countFetch l1 + countFetch l2 := by
  simp [countFetch, List.countP_append]

/-- A transport-invocation event adds one to the invocation count. -/
theorem countFetch_cons_fetch (a : Nat) (l : List Event) :
    countFetch (.fetchCall a :: l) = countFetch l + 1 := by
  simp [countFetch, List.countP_cons, isFetchEv]

/-- A predicate-invocation event leaves the invocation count unchanged. -/
theorem countFetch_cons_pred (r : Response) (b : String) (l : List Event) :
    countFetch (.predCall r b :: l) = countFetch l := by
  simp [countFetch, List.countP_cons, isFetchEv]

/-- A delay event leaves the invocation count unchanged. -/
theorem countFetch_cons_delay (a : Nat) (l : List Event) :
    countFetch (.delayEvent a :: l) = countFetch l := by
  simp [countFetch, List.countP_cons, isFetchEv]

/-- Counting delays distributes over trace concatenation. -/
theorem countDelay_append (l1 l2 : List Event) :
    countDelay (l1 ++ l2) = countDelay l1 + countDelay l2 := by
  simp [countDelay, List.countP_append]

/-- A transport-invocation event leaves the delay count unchanged. -/
theorem countDelay_cons_fetch (a : Nat) (l : List Event) :
    countDelay (.fetchCall a :: l) = countDelay l := by
  simp [countDelay, List.countP_cons, isDelayEv]

/-- A predicate-invocation event leaves the delay count unchanged. -/
theorem countDelay_cons_pred (r : Response) (b : String) (l : List Event) :
    countDelay (.predCall r b :: l) = countDelay l := by
  simp [countDelay, List.countP_cons, isDelayEv]

/-- A delay event adds one to the delay count. -/
theorem countDelay_cons_delay (a : Nat) (l : List Event) :
    countDelay (.delayEvent a :: l) = countDelay l + 1 := by
  simp [countDelay, List.countP_cons, isDelayEv]

/-- The first event of any executed attempt is its transport invocation. -/
theorem attemptLoop_fetch_mem (o : RequestOptions) (t : Nat → Except Err Response)
    (attempt k : Nat) :
    Event.fetchCall attempt ∈ (attemptLoop o t attempt (k + 1)).2 := by
  simp only [attemptLoop]
  rcases hts : tryStep (predOf o) (t attempt) (attempt == o.retries) with ⟨s, evs⟩
  cases s <;> simp [hts]

/-- With a positive iteration budget consistent with the attempt counter, the
loop never falls through to the post-loop unreachable branch. -/
theorem attemptLoop_ne_unreachable (o : RequestOptions) (t : Nat → Except Err Response) :
    ∀ remaining attempt, attempt + remaining = o.retries + 1 → 1 ≤ remaining →
    (attemptLoop o t attempt remaining).1 ≠ FRResult.unreachable := by
  intro remaining
  induction remaining with
  | zero => intro attempt _ hrem; exact absurd hrem (by omega)
  | succ k ih =>
    intro attempt hsum _
    simp only [attemptLoop]
    rcases hts : tryStep (predOf o) (t attempt) (attempt == o.retries) with ⟨s, evs⟩
    cases s with
    | ret r => simp [hts]
    | thr e => simp [hts]
    | retry =>
      have hlastb : (attempt == o.retries) = false :=
        tryStep_retry_not_last _ _ _ (by rw [hts])
      have hne : attempt ≠ o.retries := by simpa using hlastb
      have hk : 1 ≤ k := by omega
      simp only [hts]
      exact ih (attempt + 1) (by omega) hk

/-- A run of the loop in which every remaining attempt yields a non-ok,
retriable response uses every remaining attempt, delays between consecutive
attempts, and raises the HTTP exhaustion error of the final response. -/
theorem attemptLoop_all_retriable (o : RequestOptions) (t : Nat → Except Err Response)
    (res : Nat → Response) (body : Nat → String) :
    ∀ remaining attempt, 1 ≤ attempt → attempt + remaining = o.retries + 1 →
    1 ≤ remaining →
    (∀ n, attempt ≤ n → n ≤ o.retries → t n = .ok (res n)) →
    (∀ n, attempt ≤ n → n ≤ o.retries → (res n).ok = false) →
    (∀ n, attempt ≤ n → n ≤ o.retries → (res n).text = .ok (body n)) →
    (∀ n, attempt ≤ n → n ≤ o.retries → predOf o (res n) (body n) = .ok true) →
    (attemptLoop o t attempt remaining).1 = .err (mkHttpError (res o.retries).status) ∧
    countFetch (attemptLoop o t attempt remaining).2 = remaining ∧
    countDelay (attemptLoop o t attempt remaining).2 = remaining - 1 := by
  intro remaining
  induction remaining with
  | zero => intro attempt _ _ hrem _ _ _ _; exact absurd hrem (by omega)
  | succ k ih =>
    intro attempt h1 hsum _ ht hok htext hpred
    have hle : attempt ≤ o.retries := by omega
    have ht1 := ht attempt le_rfl hle
    have hok1 := hok attempt le_rfl hle
    have htext1 := htext attempt le_rfl hle
    have hpred1 := hpred attempt le_rfl hle
    rcases Nat.eq_zero_or_pos k with hk | hk
    · subst hk
      have ha : attempt = o.retries := by omega
      have hlast : (attempt == o.retries) = true := by simp [ha]
      have hts : tryStep (predOf o) (t attempt) (attempt == o.retries) =
          (.thr (mkHttpError (res attempt).status),
            [Event.predCall (res attempt) (body attempt)]) := by
        rw [hlast, ht1]
        simp [tryStep, hok1, htext1, hpred1, catchStep_last]
      simp only [attemptLoop, hts]
      refine ⟨by rw [ha], ?_, ?_⟩ <;>
        simp [countFetch, countDelay, List.countP_cons, List.countP_nil,
          isFetchEv, isDelayEv]
    · have hlast : (attempt == o.retries) = false := by
        have hne : attempt ≠ o.retries := by omega
        simpa using hne
      have hts : tryStep (predOf o) (t attempt) (attempt == o.retries) =
          (.retry, [Event.predCall (res attempt) (body attempt)]) := by
        rw [hlast, ht1]
        simp [tryStep, hok1, htext1, hpred1]
      obtain ⟨ih1, ih2, ih3⟩ := ih (attempt + 1) (by omega) (by omega) hk
        (fun n hn1 hn2 => ht n (by omega) hn2)
        (fun n hn1 hn2 => hok n (by omega) hn2)
        (fun n hn1 hn2 => htext n (by omega) hn2)
        (fun n hn1 hn2 => hpred n (by omega) hn2)
      simp only [attemptLoop, hts]
      refine ⟨ih1, ?_, ?_⟩
      · simp only [List.cons_append, List.nil_append, countFetch_cons_fetch,
          countFetch_cons_pred, countFetch_cons_delay, ih2]
      · simp only [List.cons_append, List.nil_append, countDelay_cons_fetch,
          countDelay_cons_pred, countDelay_cons_delay, ih3]
        omega

/-- A run of the loop in which every remaining attempt raises a
transient-classified error uses every remaining attempt, delays between
consecutive attempts, and rethrows the final attempt's error itself. -/
theorem attemptLoop_all_transient (o : RequestOptions) (t : Nat → Except Err Response)
    (errf : Nat → Err) :
    ∀ remaining attempt, 1 ≤ attempt → attempt + remaining = o.retries + 1 →
    1 ≤ remaining →
    (∀ n, attempt ≤ n → n ≤ o.retries → t n = .error (errf n)) →
    (∀ n, attempt ≤ n → n ≤ o.retries → isTransient (errf n) = true) →
    (attemptLoop o t attempt remaining).1 = .err (errf o.retries) ∧
    countFetch (attemptLoop o t attempt remaining).2 = remaining ∧
    countDelay (attemptLoop o t attempt remaining).2 = remaining - 1 := by
  intro remaining
  induction remaining with
  | zero => intro attempt _ _ hrem _ _; exact absurd hrem (by omega)
  | succ k ih =>
    intro attempt h1 hsum _ ht htr
    have hle : attempt ≤ o.retries := by omega
    have ht1 := ht attempt le_rfl hle
    have htr1 := htr attempt le_rfl hle
    rcases Nat.eq_zero_or_pos k with hk | hk
    · subst hk
      have ha : attempt = o.retries := by omega
      have hlast : (attempt == o.retries) = true := by simp [ha]
      have hts : tryStep (predOf o) (t attempt) (attempt == o.retries) =
          (.thr (errf attempt), []) := by
        rw [hlast, ht1]
        simp [tryStep, catchStep_last]
      simp only [attemptLoop, hts]
      refine ⟨by rw [ha], ?_, ?_⟩ <;>
        simp [countFetch, countDelay, List.countP_cons, List.countP_nil,
          isFetchEv, isDelayEv]
    · have hlast : (attempt == o.retries) = false := by
        have hne : attempt ≠ o.retries := by omega
        simpa using hne
      have hts : tryStep (predOf o) (t attempt) (attempt == o.retries) =
          (.retry, []) := by
        rw [hlast, ht1]
        simp [tryStep, catchStep_transient _ _ htr1]
      obtain ⟨ih1, ih2, ih3⟩ := ih (attempt + 1) (by omega) (by omega) hk
        (fun n hn1 hn2 => ht n (by omega) hn2)
        (fun n hn1 hn2 => htr n (by omega) hn2)
      simp only [attemptLoop, hts]
      refine ⟨ih1, ?_, ?_⟩
      · simp only [List.cons_append, List.nil_append, countFetch_cons_fetch,
          countFetch_cons_pred, countFetch_cons_delay, ih2]
      · simp only [List.cons_append, List.nil_append, countDelay_cons_fetch,
          countDelay_cons_pred, countDelay_cons_delay, ih3]
        omega

/-- Every predicate invocation recorded anywhere in a loop run received a
non-ok response together with its successfully read body. -/
theorem attemptLoop_pred_sound (o : RequestOptions) (t : Nat → Except Err Response) :
    ∀ remaining attempt res body,
    Event.predCall res body ∈ (attemptLoop o t attempt remaining).2 →
    res.ok = false ∧ res.text = Except.ok body := by
  intro remaining
  induction remaining with
  | zero => intro attempt res body h; simp [attemptLoop] at h
  | succ k ih =>
    intro attempt res body h
    simp only [attemptLoop] at h
    rcases hts : tryStep (predOf o) (t attempt) (attempt == o.retries) with ⟨s, evs⟩
    rw [hts] at h
    have hevs : evs = (tryStep (predOf o) (t attempt) (attempt == o.retries)).2 := by
      rw [hts]
    cases s with
    | ret r =>
      simp at h
      exact tryStep_pred_sound _ _ _ _ _ (hevs ▸ h)
    | thr e =>
      simp at h
      exact tryStep_pred_sound _ _ _ _ _ (hevs ▸ h)
    | retry =>
      simp at h
      rcases h with h | h
      · exact tryStep_pred_sound _ _ _ _ _ (hevs ▸ h)
      · exact ih (attempt + 1) res body h

/-- C5: for every configuration with at least one attempt, if the transport
returns an ok response on the first attempt, the executor returns that exact
response and the entire trace is the single transport invocation: exactly
one call, no delay. -/
theorem ok_first_attempt (o : RequestOptions) (t : Nat → Except Err Response)
    (res : Response) (hN : 1 ≤ o.retries) (ht : t 1 = .ok res)
    (hok : res.ok = true) :
    (fetchRetrier o t).1 = .ok res ∧
    (fetchRetrier o t).2 = [Event.fetchCall 1] := by
  obtain ⟨m, hm⟩ : ∃ m, o.retries = m + 1 := ⟨o.retries - 1, by omega⟩
  have hts : tryStep (predOf o) (t 1) (1 == o.retries) = (.ret res, []) := by
    rw [ht]
    simp [tryStep, hok]
  unfold fetchRetrier
  rw [hm]
  simp [attemptLoop, hts]

/-- Witness for C5 at a concrete configuration and transport. -/
theorem ok_first_attempt_witness :
    (fetchRetrier (wOpts 3) (fun _ => .ok okRes)).1 = .ok okRes ∧
    (fetchRetrier (wOpts 3) (fun _ => .ok okRes)).2 = [Event.fetchCall 1] :=
  ok_first_attempt (wOpts 3) (fun _ => .ok okRes) okRes (by decide) rfl rfl

/-- C3: for every configuration with at least one attempt, if the first
attempt raises an error that is neither cancellation/timeout-classified nor
a network-layer error, the executor fails at once, re-raising that exact
error, after exactly one transport invocation and with no backoff delay. -/
theorem fatal_error_immediate (o : RequestOptions) (t : Nat → Except Err Response)
    (e : Err) (hN : 1 ≤ o.retries) (ht : t 1 = .error e)
    (hf : isTransient e = false) :
    (fetchRetrier o t).1 = .err e ∧
    countFetch (fetchRetrier o t).2 = 1 ∧
    countDelay (fetchRetrier o t).2 = 0 := by
  obtain ⟨m, hm⟩ : ∃ m, o.retries = m + 1 := ⟨o.retries - 1, by omega⟩
  have hts : tryStep (predOf o) (t 1) (1 == o.retries) = (.thr e, []) := by
    rw [ht]
    simp [tryStep, catchStep_fatal _ _ hf]
  unfold fetchRetrier
  rw [hm]
  refine ⟨?_, ?_, ?_⟩ <;>
    simp [attemptLoop, hts, countFetch, countDelay, List.countP_cons,
      List.countP_nil, isFetchEv, isDelayEv]

/-- Witness for C3 at a concrete generic error and a budget of 3. -/
theorem fatal_error_immediate_witness :
    (fetchRetrier (wOpts 3) (fun _ => .error genericErr)).1 = .err genericErr ∧
    countFetch (fetchRetrier (wOpts 3) (fun _ => .error genericErr)).2 = 1 ∧
    countDelay (fetchRetrier (wOpts 3) (fun _ => .error genericErr)).2 = 0 :=
  fatal_error_immediate (wOpts 3) (fun _ => .error genericErr) genericErr
    (by decide) rfl (by decide)

/-- The error thrown for a non-retriable response is not classified as
transient by the catch block. -/
theorem isTransient_mkNonRetriableError (s : Nat) :
    isTransient (mkNonRetriableError s) = false := rfl

/-- C4: for every configuration with at least one attempt, if the first
attempt yields a non-ok response that the retry predicate rejects, the
executor fails at once with the non-retriable HTTP error carrying that
status, after exactly one transport invocation and with no backoff delay,
however many attempts remain. -/
theorem non_retriable_immediate (o : RequestOptions) (t : Nat → Except Err Response)
    (res : Response) (body : String) (hN : 1 ≤ o.retries) (ht : t 1 = .ok res)
    (hok : res.ok = false) (htext : res.text = .ok body)
    (hpred : predOf o res body = .ok false) :
    (fetchRetrier o t).1 = .err (mkNonRetriableError res.status) ∧
    countFetch (fetchRetrier o t).2 = 1 ∧
    countDelay (fetchRetrier o t).2 = 0 := by
  obtain ⟨m, hm⟩ : ∃ m, o.retries = m + 1 := ⟨o.retries - 1, by omega⟩
  have hts : tryStep (predOf o) (t 1) (1 == o.retries) =
      (.thr (mkNonRetriableError res.status), [Event.predCall res body]) := by
    rw [ht]
    simp [tryStep, hok, htext, hpred,
      catchStep_fatal _ _ (isTransient_mkNonRetriableError res.status)]
  unfold fetchRetrier
  rw [hm]
  refine ⟨?_, ?_, ?_⟩ <;>
    simp [attemptLoop, hts, countFetch, countDelay, List.countP_cons,
      List.countP_nil, isFetchEv, isDelayEv]

/-- Witness for C4 at a concrete 400 response under the default policy. -/
theorem non_retriable_immediate_witness :
    (fetchRetrier (wOpts 3) (fun _ => .ok res400)).1 =
      .err (mkNonRetriableError 400) ∧
    countFetch (fetchRetrier (wOpts 3) (fun _ => .ok res400)).2 = 1 ∧
    countDelay (fetchRetrier (wOpts 3) (fun _ => .ok res400)).2 = 0 :=
  non_retriable_immediate (wOpts 3) (fun _ => .ok res400) res400 "bad request"
    (by decide) rfl rfl rfl rfl

/-- C8: in every execution, every recorded invocation of the retry predicate
received a response whose ok flag is false, together with the fully read
body text of that response. -/
theorem pred_only_non_ok (o : RequestOptions) (t : Nat → Except Err Response)
    (res : Response) (body : String)
    (h : Event.predCall res body ∈ (fetchRetrier o t).2) :
    res.ok = false ∧ res.text = Except.ok body :=
  attemptLoop_pred_sound o t o.retries 1 res body h

/-- Witness for C8 at a concrete exhausting run. -/
theorem pred_only_non_ok_witness :
    res503.ok = false ∧ res503.text = Except.ok "unavailable" :=
  pred_only_non_ok (wOpts 2) (fun _ => .ok res503) res503 "unavailable"
    (by decide)

/-- C9: for any transport, with at least one allowed attempt the executor
never terminates in the post-loop invariant-violation branch; with a zero
attempt budget it terminates in exactly that branch after zero transport
invocations. -/
theorem unreachable_only_zero_attempts (o : RequestOptions)
    (t : Nat → Except Err Response) :
    (1 ≤ o.retries → (fetchRetrier o t).1 ≠ FRResult.unreachable) ∧
    (o.retries = 0 → (fetchRetrier o t).1 = FRResult.unreachable ∧
      countFetch (fetchRetrier o t).2 = 0) := by
  constructor
  · intro hN
    exact attemptLoop_ne_unreachable o t o.retries 1 (by omega) hN
  · intro h0
    unfold fetchRetrier
    rw [h0]
    exact ⟨rfl, rfl⟩

/-- Witness for C9 at budgets 2 and 0. -/
theorem unreachable_only_zero_attempts_witness :
    (fetchRetrier (wOpts 2) (fun _ => .ok res503)).1 ≠ FRResult.unreachable ∧
    ((fetchRetrier (wOpts 0) (fun _ => .ok res503)).1 = FRResult.unreachable ∧
      countFetch (fetchRetrier (wOpts 0) (fun _ => .ok res503)).2 = 0) :=
  ⟨(unreachable_only_zero_attempts (wOpts 2) (fun _ => .ok res503)).1 (by decide),
    (unreachable_only_zero_attempts (wOpts 0) (fun _ => .ok res503)).2 rfl⟩

/-- C7 as stated is false at `base = 0`: the calculator returns 0, which
does not lie in the then-empty interval `[0, 0 * 2 ^ attempt)`. -/
theorem fullJitter_zero_base_counterexample :
    ¬ (0 ≤ fullJitter 0 1 (1 / 2) ∧
      fullJitter 0 1 (1 / 2) < ((0 : Nat) : ℤ) * 2 ^ 1) := by
  intro h
  have h0 : fullJitter 0 1 (1 / 2) = 0 := by
    unfold fullJitter
    norm_num
  rw [h0] at h
  norm_num at h

/-- C7 (amended): for every positive base, every attempt at least 1, and
every randomness value in `[0, 1)`, the jitter delay lies in the half-open
interval `[0, base * 2 ^ attempt)`; for a zero base the calculator returns
exactly 0. -/
theorem fullJitter_range (base attempt : Nat) (r : ℚ)
    (h0 : 0 ≤ r) (h1 : r < 1) (ha : 1 ≤ attempt) :
    (1 ≤ base → 0 ≤ fullJitter base attempt r ∧
      fullJitter base attempt r < (base : ℤ) * 2 ^ attempt) ∧
    (base = 0 → fullJitter base attempt r = 0) := by
  constructor
  · intro hb
    have hbq : (0 : ℚ) < (base : ℚ) := by
      have : 0 < base := by omega
      exact_mod_cast this
    have hcap : (0 : ℚ) < (base : ℚ) * 2 ^ attempt :=
      mul_pos hbq (pow_pos (by norm_num) attempt)
    unfold fullJitter
    constructor
    · exact Int.floor_nonneg.mpr (mul_nonneg h0 (le_of_lt hcap))
    · rw [Int.floor_lt]
      push_cast
      calc r * ((base : ℚ) * 2 ^ attempt)
          < 1 * ((base : ℚ) * 2 ^ attempt) := mul_lt_mul_of_pos_right h1 hcap
        _ = (base : ℚ) * 2 ^ attempt := one_mul _
  · intro hb
    subst hb
    unfold fullJitter
    norm_num

/-- Witness for the amended C7 at base 4, attempt 1, randomness one half. -/
theorem fullJitter_range_witness :
    0 ≤ fullJitter 4 1 (1 / 2) ∧
    fullJitter 4 1 (1 / 2) < ((4 : Nat) : ℤ) * 2 ^ 1 :=
  (fullJitter_range 4 1 (1 / 2) (by norm_num) (by norm_num) (by norm_num)).1
    (by norm_num)

/-- C1: for every configuration with `retries = N ≥ 1` and a transport that
on every attempt yields a non-ok response the retry predicate accepts as
retriable, the executor invokes the transport exactly N times and fails with
the HTTP exhaustion error carrying the status of the last response. -/
theorem always_retriable_exhausts (o : RequestOptions)
    (t : Nat → Except Err Response) (res : Nat → Response) (body : Nat → String)
    (hN : 1 ≤ o.retries)
    (ht : ∀ n, 1 ≤ n → n ≤ o.retries → t n = .ok (res n))
    (hok : ∀ n, 1 ≤ n → n ≤ o.retries → (res n).ok = false)
    (htext : ∀ n, 1 ≤ n → n ≤ o.retries → (res n).text = .ok (body n))
    (hpred : ∀ n, 1 ≤ n → n ≤ o.retries → predOf o (res n) (body n) = .ok true) :
    (fetchRetrier o t).1 = .err (mkHttpError (res o.retries).status) ∧
    countFetch (fetchRetrier o t).2 = o.retries := by
  have h := attemptLoop_all_retriable o t res body o.retries 1 le_rfl (by omega)
    hN ht hok htext hpred
  exact ⟨h.1, h.2.1⟩

/-- Witness for C1: a transport always yielding a retriable 503, budget 2. -/
theorem always_retriable_exhausts_witness :
    (fetchRetrier (wOpts 2) (fun _ => .ok res503)).1 = .err (mkHttpError 503) ∧
    countFetch (fetchRetrier (wOpts 2) (fun _ => .ok res503)).2 = 2 :=
  always_retriable_exhausts (wOpts 2) (fun _ => .ok res503) (fun _ => res503)
    (fun _ => "unavailable") (by decide) (fun _ _ _ => rfl) (fun _ _ _ => rfl)
    (fun _ _ _ => rfl) (fun _ _ _ => rfl)

/-- C2: for every configuration with `retries = N ≥ 1` and a transport that
on every attempt raises a cancellation/timeout-classified or network-layer
error, the executor retries after a backoff delay while attempts remain
(N invocations, N - 1 delays) and finally fails by re-raising the last
attempt's original error itself, identity and message preserved. -/
theorem transient_error_retry_exhaust (o : RequestOptions)
    (t : Nat → Except Err Response) (errf : Nat → Err)
    (hN : 1 ≤ o.retries)
    (ht : ∀ n, 1 ≤ n → n ≤ o.retries → t n = .error (errf n))
    (htr : ∀ n, 1 ≤ n → n ≤ o.retries → isTransient (errf n) = true) :
    (fetchRetrier o t).1 = .err (errf o.retries) ∧
    countFetch (fetchRetrier o t).2 = o.retries ∧
    countDelay (fetchRetrier o t).2 = o.retries - 1 :=
  attemptLoop_all_transient o t errf o.retries 1 le_rfl (by omega) hN ht htr

/-- Witness for C2: a transport always raising the abort error, budget 2. -/
theorem transient_error_retry_exhaust_witness :
    (fetchRetrier (wOpts 2) (fun _ => .error abortErr)).1 = .err abortErr ∧
    countFetch (fetchRetrier (wOpts 2) (fun _ => .error abortErr)).2 = 2 ∧
    countDelay (fetchRetrier (wOpts 2) (fun _ => .error abortErr)).2 = 1 :=
  transient_error_retry_exhaust (wOpts 2) (fun _ => .error abortErr)
    (fun _ => abortErr) (by decide) (fun _ _ _ => rfl) (fun _ _ _ => rfl)

/-- C6: for every configuration with at least 3 attempts and a transport
yielding two non-ok retriable responses and then an ok response, the
executor returns the third response after exactly 3 transport invocations
and exactly 2 intervening backoff delays. -/
theorem two_retries_then_ok (o : RequestOptions) (t : Nat → Except Err Response)
    (r1 r2 r3 : Response) (b1 b2 : String)
    (hN : 3 ≤ o.retries)
    (ht1 : t 1 = .ok r1) (ho1 : r1.ok = false) (hx1 : r1.text = .ok b1)
    (hp1 : predOf o r1 b1 = .ok true)
    (ht2 : t 2 = .ok r2) (ho2 : r2.ok = false) (hx2 : r2.text = .ok b2)
    (hp2 : predOf o r2 b2 = .ok true)
    (ht3 : t 3 = .ok r3) (ho3 : r3.ok = true) :
    (fetchRetrier o t).1 = .ok r3 ∧
    countFetch (fetchRetrier o t).2 = 3 ∧
    countDelay (fetchRetrier o t).2 = 2 := by
  obtain ⟨m, hm⟩ : ∃ m, o.retries = m + 1 + 1 + 1 := ⟨o.retries - 3, by omega⟩
  have hl1 : (1 == o.retries) = false := by
    have h : (1 : Nat) ≠ o.retries := by omega
    simpa using h
  have hl2 : (2 == o.retries) = false := by
    have h : (2 : Nat) ≠ o.retries := by omega
    simpa using h
  have hts1 : tryStep (predOf o) (t 1) (1 == o.retries) =
      (.retry, [Event.predCall r1 b1]) := by
    rw [hl1, ht1]
    simp [tryStep, ho1, hx1, hp1]
  have hts2 : tryStep (predOf o) (t 2) (2 == o.retries) =
      (.retry, [Event.predCall r2 b2]) := by
    rw [hl2, ht2]
    simp [tryStep, ho2, hx2, hp2]
  have hts3 : tryStep (predOf o) (t 3) (3 == o.retries) = (.ret r3, []) := by
    rw [ht3]
    simp [tryStep, ho3]
  unfold fetchRetrier
  rw [hm]
  refine ⟨?_, ?_, ?_⟩ <;>
    simp [attemptLoop, hts1, hts2, hts3, countFetch, countDelay,
      List.countP_append, List.countP_cons, List.countP_nil, isFetchEv, isDelayEv]

/-- Witness for C6: two 503 responses then ok, budget 3. -/
theorem two_retries_then_ok_witness :
    (fetchRetrier (wOpts 3) twoFailTransport).1 = .ok okRes ∧
    countFetch (fetchRetrier (wOpts 3) twoFailTransport).2 = 3 ∧
    countDelay (fetchRetrier (wOpts 3) twoFailTransport).2 = 2 :=
  two_retries_then_ok (wOpts 3) twoFailTransport res503 res503 okRes
    "unavailable" "unavailable" (by decide) rfl rfl rfl rfl rfl rfl rfl rfl
    rfl rfl

/-- C10: errors raised while reading the response body or by the retry
predicate go through the same catch handler as transport errors: a
transient-classified one (TypeError, or Error named AbortError) with
attempts remaining leads to a backoff delay and a further transport
invocation, the run continuing as the loop from attempt 2; any other error
is propagated at once after a single invocation and no delay. -/
theorem body_pred_errors_same_handler (o : RequestOptions)
    (t : Nat → Except Err Response) (res : Response) (e : Err)
    (hN : 2 ≤ o.retries) (ht : t 1 = .ok res) (hok : res.ok = false)
    (hsrc : res.text = .error e ∨
      ∃ body, res.text = .ok body ∧ predOf o res body = .error e) :
    (isTransient e = true →
      (fetchRetrier o t).1 = (attemptLoop o t 2 (o.retries - 1)).1 ∧
      Event.delayEvent 1 ∈ (fetchRetrier o t).2 ∧
      Event.fetchCall 2 ∈ (fetchRetrier o t).2) ∧
    (isTransient e = false →
      (fetchRetrier o t).1 = .err e ∧
      countFetch (fetchRetrier o t).2 = 1 ∧
      countDelay (fetchRetrier o t).2 = 0) := by
  obtain ⟨m, hm⟩ : ∃ m, o.retries = m + 1 + 1 := ⟨o.retries - 2, by omega⟩
  have hl1 : (1 == o.retries) = false := by
    have h : (1 : Nat) ≠ o.retries := by omega
    simpa using h
  have hsub : o.retries - 1 = m + 1 := by omega
  constructor
  · intro htr
    have hts : ∃ evs, tryStep (predOf o) (t 1) (1 == o.retries) =
        (.retry, evs) := by
      rcases hsrc with hA | ⟨body, hB1, hB2⟩
      · refine ⟨[], ?_⟩
        rw [hl1, ht]
        simp [tryStep, hok, hA, catchStep_transient _ _ htr]
      · refine ⟨[Event.predCall res body], ?_⟩
        rw [hl1, ht]
        simp [tryStep, hok, hB1, hB2, catchStep_transient _ _ htr]
    obtain ⟨evs, hts⟩ := hts
    unfold fetchRetrier
    rw [hsub, hm]
    refine ⟨?_, ?_, ?_⟩
    · simp only [attemptLoop, hts]
    · simp [attemptLoop, hts]
    · simp only [attemptLoop, hts]
      exact List.mem_append_right _
        (List.mem_cons_of_mem _ (attemptLoop_fetch_mem o t 2 m))
  · intro htr
    have hts : (tryStep (predOf o) (t 1) (1 == o.retries)).1 = .thr e ∧
        countFetch (tryStep (predOf o) (t 1) (1 == o.retries)).2 = 0 ∧
        countDelay (tryStep (predOf o) (t 1) (1 == o.retries)).2 = 0 := by
      rcases hsrc with hA | ⟨body, hB1, hB2⟩
      · rw [hl1, ht]
        simp [tryStep, hok, hA, catchStep_fatal _ _ htr, countFetch_nil,
          countDelay_nil]
      · rw [hl1, ht]
        simp [tryStep, hok, hB1, hB2, catchStep_fatal _ _ htr, countFetch,
          countDelay, List.countP_cons, List.countP_nil, isFetchEv, isDelayEv]
    rcases hpair : tryStep (predOf o) (t 1) (1 == o.retries) with ⟨s, evs⟩
    rw [hpair] at hts
    obtain ⟨hs, hcf, hcd⟩ := hts
    subst hs
    unfold fetchRetrier
    rw [hm]
    refine ⟨?_, ?_, ?_⟩ <;>
      simp [attemptLoop, hpair, countFetch_cons_fetch, countDelay_cons_fetch,
        hcf, hcd]

/-- Witness for C10: body read raising a TypeError on attempt 1 with a
budget of 2 delays and retries, continuing as the loop from attempt 2. -/
theorem body_pred_errors_same_handler_witness :
    (fetchRetrier (wOpts 2) textFailTransport).1 =
      (attemptLoop (wOpts 2) textFailTransport 2 ((wOpts 2).retries - 1)).1 ∧
    Event.delayEvent 1 ∈ (fetchRetrier (wOpts 2) textFailTransport).2 ∧
    Event.fetchCall 2 ∈ (fetchRetrier (wOpts 2) textFailTransport).2 :=
  (body_pred_errors_same_handler (wOpts 2) textFailTransport textFailRes
    typeErr (by decide) rfl rfl (Or.inl rfl)).1 (by decide)

end FetchRetry
